import Mathlib

/-!
Verification development for the Liferea node source layer
(src/fl_sources/node_source.h).  The repository snapshot contains only the
header: the capability flag enum, the nodeSourceType operation table, the
nodeSource instance struct, the NODE_SOURCE_TYPE macro and the declarations
plus documentation of the dispatch functions implemented in node_source.c.
The bodies of the dispatch functions are therefore modelled from the
specification; every such definition says so in its doc comment.  Hook
invocations are recorded as events in a trace so that claims about which
provider hook runs, and how often, can be stated and proved.
-/

namespace NodeSourceSpec

/-- Capability flag from the node_source.h enum: flag only for the default
feed list source. -/
def NODE_SOURCE_CAPABILITY_IS_ROOT : Nat := 1 <<< 0

/-- Capability flag from the node_source.h enum: feed list source is user
created. -/
def NODE_SOURCE_CAPABILITY_DYNAMIC_CREATION : Nat := 1 <<< 1

/-- Capability flag from the node_source.h enum: the feed list tree of the
source can be changed. -/
def NODE_SOURCE_CAPABILITY_WRITABLE_FEEDLIST : Nat := 1 <<< 2

/-- Capability flag from the node_source.h enum: feeds can be added to the
source. -/
def NODE_SOURCE_CAPABILITY_ADD_FEED : Nat := 1 <<< 3

/-- Capability flag from the node_source.h enum: folders can be added to the
source. -/
def NODE_SOURCE_CAPABILITY_ADD_FOLDER : Nat := 1 <<< 4

/-- Capability flag from the node_source.h enum: the feed list tree of the
source can have hierarchic folders. -/
def NODE_SOURCE_CAPABILITY_HIERARCHIC_FEEDLIST : Nat := 1 <<< 5

/-- Capability flag from the node_source.h enum: the item state can and
should be synced with remote. -/
def NODE_SOURCE_CAPABILITY_ITEM_STATE_SYNC : Nat := 1 <<< 6

/-- Capability flag from the node_source.h enum: node sources of this type
can be converted to internal subscription lists. -/
def NODE_SOURCE_CAPABILITY_CONVERT_TO_LOCAL : Nat := 1 <<< 7

/-- Bitmask test on a gulong capability field, as written in the C dispatch
code: capabilities AND flag is nonzero. -/
def hasCap (caps flag : Nat) : Bool := caps &&& flag != 0

/-- Subscription descriptor (external collaborator, spec section 6): carries
at minimum a fetch target and an update-interval policy; providers may read
and rewrite it. -/
structure Subscription where
  source : String
  updateInterval : Nat
deriving DecidableEq

/-- Modelled from the spec: node_source.c is absent.  One node of the feed
list subtree that a source_import hook creates under the source root node
(spec section 4.2: import creates the feed list subtree attached to the
source root node).  The imported nodes carry no bound provider instance of
their own. -/
structure ImportedNode where
  title : String
  subscription : Option Subscription
  subType : Option String
deriving DecidableEq

/-- Feed list node source type (struct nodeSourceType): identifier, display
name, description, capability bitmask and the subscription type for child
subscription nodes.  The optional source_new and source_delete hooks are
represented by their presence (the header marks them OPTIONAL, mandatory for
all sources except the root source).  The mandatory source_import hook is
represented by the subtree it creates; the add_subscription hook by the
rewrite it may apply to the given subscription.  The remaining hooks of the
operation table (source_export, source_get_feedlist, source_update,
source_auto_update, free, item_set_flag, item_mark_read, add_folder,
remove_node, convert_to_local) are modelled behaviourally inside the
dispatch functions below, their invocations recorded as trace events. -/
structure NodeSourceType where
  id : String
  name : String
  description : String
  capabilities : Nat
  subscriptionType : String
  source_new : Option Unit
  source_delete : Option Unit
  source_import : List ImportedNode
  add_subscription_rewrite : Subscription → Subscription

/-- Feed list source instance (struct nodeSource): the node source type of
this source instance and the insertion node of this node source instance,
here addressed by its path from the master root. -/
structure NodeSource where
  type : NodeSourceType
  root : List Nat

/-- Payload of one feed list tree node (external tree node collaborator):
an optional bound provider instance, an optional subscription with its
subscription type identifier, and a title. -/
structure NodeData where
  source : Option NodeSource
  subscription : Option Subscription
  subType : Option String
  title : String

/-- Feed list tree: a rose tree of node payloads.  A node of the live tree
is addressed by its path of child indices from the master root, and its
parent chain is the chain of proper prefixes of that path. -/
inductive FTree : Type where
  | node : NodeData → List FTree → FTree

/-- Payload of a tree node. -/
def FTree.data : FTree → NodeData
  | .node d _ => d

/-- Children of a tree node. -/
def FTree.children : FTree → List FTree
  | .node _ cs => cs

/-- Node lookup along a path of child indices. -/
def getNode : FTree → List Nat → Option FTree
  | t, [] => some t
  | t, i :: rest =>
    match t.children[i]? with
    | none => none
    | some c => getNode c rest

/-- Modelled from the spec: node_source.c is absent.  Spec section 4.4 says
each routed operation resolves the owning provider instance for the target
node by walking parent references until a node with its own bound instance
is found; the walk stops at the master root in the worst case.  Since the
tree is addressed from the master root, the walk is computed by recursion
along the path: the result is the deepest node on the path that holds a
bound instance, or the master root when no node on the path holds one.
Totality of this definition is the termination of the walk. -/
def node_source_root_from_node : FTree → List Nat → Option FTree
  | t, [] => some t
  | t, i :: rest =>
    match t.children[i]? with
    | none => none
    | some c =>
      match node_source_root_from_node c rest with
      | none => none
      | some r => some (if (FTree.data r).source.isSome then r else t)

/-- NODE_SOURCE_TYPE macro from node_source.h: casts the node source from a
node structure and reads its type field, with no null check on node->source.
A none result models the fault of dereferencing an unbound slot. -/
def NODE_SOURCE_TYPE (n : FTree) : Option NodeSourceType :=
  n.data.source.map NodeSource.type

/-- Provider type of the resolved owning instance of a node: the root node
resolution walk followed by the NODE_SOURCE_TYPE macro, exactly as every
dispatch function in node_source.c opens. -/
def resolvedType (t : FTree) (p : List Nat) : Option NodeSourceType :=
  match node_source_root_from_node t p with
  | none => none
  | some r => NODE_SOURCE_TYPE r

/-- Rewrite the subtree at the end of a path with f; none when the path
addresses no node. -/
def modifyAt : FTree → List Nat → (FTree → FTree) → Option FTree
  | t, [], f => some (f t)
  | t, i :: rest, f =>
    match t.children[i]? with
    | none => none
    | some c =>
      match modifyAt c rest f with
      | none => none
      | some c2 => some (.node t.data (t.children.set i c2))

/-- Append a new child under a node. -/
def appendChild (c t : FTree) : FTree :=
  .node t.data (t.children ++ [c])

/-- Attach a new child node under the node at the given path. -/
def attachChild (t : FTree) (p : List Nat) (c : FTree) : Option FTree :=
  modifyAt t p (appendChild c)

/-- Trace event: one invocation of a provider hook, or one step of the root
bootstrap sequence.  Provider state and remote side effects change only
through hook invocations, so a dispatch call whose trace is empty performed
no provider-side effect. -/
inductive Event : Type where
  | createNode : Event
  | createInstance : String → Event
  | sourceImport : String → Event
  | sourceNew : String → Event
  | addSubscription : Subscription → Event
  | addFolder : String → Event
  | itemMarkRead : Nat → Bool → Event
  | itemSetFlag : Nat → Bool → Event
  | convertToLocal : Event
deriving DecidableEq

/-- Modelled from the spec: identifier of the plain local (default)
subscription type that convert_to_local rewrites descendant subscriptions
to (spec sections 4.4 and 8). -/
def localSubscriptionTypeId : String := "local"

/-- Registry of provider type descriptors, in registration order (spec
section 4.1: process-wide, registered once, immutable thereafter). -/
def register (r : List NodeSourceType) (d : NodeSourceType) :
    List NodeSourceType :=
  r ++ [d]

/-- Registry state reached by registering a sequence of descriptors into the
empty registry. -/
def registryOf (ds : List NodeSourceType) : List NodeSourceType :=
  ds.foldl register []

/-- Registered descriptors carrying the IS_ROOT capability flag. -/
def rootTypes (r : List NodeSourceType) : List NodeSourceType :=
  r.filter (fun d => hasCap d.capabilities NODE_SOURCE_CAPABILITY_IS_ROOT)

/-- Modelled from the spec: node_source.c is absent.  Spec section 4.1
find_root scans all registered descriptors and returns the single one with
IsRoot; it fails fatally if zero or more than one match.  The fatal abort is
modelled by none. -/
def find_root (r : List NodeSourceType) : Option NodeSourceType :=
  match rootTypes r with
  | [d] => some d
  | _ => none

/-- Tree node freshly created by the root bootstrap for a root descriptor:
it holds a bound instance whose type is the root descriptor and whose
insertion node is the master root, and its children are the subtree created
by the import hook of the descriptor. -/
def setupRootNode (d : NodeSourceType) : FTree :=
  .node
    { source := some { type := d, root := [] }, subscription := none,
      subType := none, title := d.name }
    (d.source_import.map (fun x =>
      .node
        { source := none, subscription := x.subscription,
          subType := x.subType, title := x.title } []))

/-- Modelled from the spec: node_source.c is absent.  Spec section 4.2
setup_root finds the root descriptor, creates a new tree node, creates a
provider instance binding that node to the root descriptor, invokes the
importing hook of the descriptor on that node, returns the node; failure to
find a root descriptor is fatal (none).  The trace records the steps in
order. -/
def node_source_setup_root (r : List NodeSourceType) :
    Option (FTree × List Event) :=
  match find_root r with
  | none => none
  | some d =>
    some (setupRootNode d,
      [Event.createNode, Event.createInstance d.id, Event.sourceImport d.id])

/-- Modelled from the spec: node_source.c is absent.  Spec section 4.3
create(node, type): if the type is not the root type and the type declares
DynamicCreation, invokes the optional source_new hook of the type, binds the
node to the instance, and returns it.  Invoking an absent hook is the null
dereference fault, modelled by none. -/
def node_source_new (nd : NodeData) (p : List Nat) (d : NodeSourceType) :
    Option (NodeData × List Event) :=
  let bound : NodeData :=
    { nd with source := some { type := d, root := p } }
  if hasCap d.capabilities NODE_SOURCE_CAPABILITY_IS_ROOT then
    some (bound, [Event.createInstance d.id])
  else if hasCap d.capabilities NODE_SOURCE_CAPABILITY_DYNAMIC_CREATION then
    match d.source_new with
    | none => none
    | some _ => some (bound, [Event.sourceNew d.id, Event.createInstance d.id])
  else
    some (bound, [Event.createInstance d.id])

/-- Result of a tree-mutating dispatch call: the returned node (none on a
capability refusal), the trace of hook invocations, and the feed list tree
after the call. -/
structure DispatchResult where
  newNode : Option FTree
  events : List Event
  tree : FTree

/-- Child subscription node created by the add_subscription hook: it holds
the given subscription after the rewrite the provider may apply (for example
rewriting the fetch target to a proxied URL), typed with the subscription
type of the provider, and carries no bound instance of its own. -/
def newSubscriptionNode (ty : NodeSourceType) (sub : Subscription) : FTree :=
  .node
    { source := none, subscription := some (ty.add_subscription_rewrite sub),
      subType := some ty.subscriptionType,
      title := (ty.add_subscription_rewrite sub).source } []

/-- Modelled from the spec: node_source.c is absent.  Spec section 4.4
add_subscription(node, subscription) resolves the owning instance, requires
WritableTree and AddFeed on its type, refuses with zero mutation when either
is absent, and otherwise invokes the add_subscription hook of the operation
table, which creates and returns a new child node set up with the given
(possibly rewritten) subscription, attached under the target.  The outer
none is the NODE_SOURCE_TYPE fault on an unresolvable node. -/
def node_source_add_subscription (t : FTree) (p : List Nat)
    (sub : Subscription) : Option DispatchResult :=
  match resolvedType t p with
  | none => none
  | some ty =>
    if hasCap ty.capabilities NODE_SOURCE_CAPABILITY_WRITABLE_FEEDLIST &&
        hasCap ty.capabilities NODE_SOURCE_CAPABILITY_ADD_FEED then
      match attachChild t p (newSubscriptionNode ty sub) with
      | none => none
      | some t2 =>
        some
          { newNode := some (newSubscriptionNode ty sub),
            events := [Event.addSubscription (ty.add_subscription_rewrite sub)],
            tree := t2 }
    else
      some { newNode := none, events := [], tree := t }

/-- Child folder node created by the add_folder hook: it carries the given
title, no subscription and no bound instance. -/
def newFolderNode (title : String) : FTree :=
  .node
    { source := none, subscription := none, subType := none,
      title := title } []

/-- Modelled from the spec: node_source.c is absent.  Spec section 4.4
add_folder(node, title) resolves the owning instance, requires WritableTree,
AddFolder and HierarchicTree on its type, refuses with zero mutation when
any is absent, and otherwise invokes the add_folder hook, which creates and
returns the new folder node attached under the target. -/
def node_source_add_folder (t : FTree) (p : List Nat) (title : String) :
    Option DispatchResult :=
  match resolvedType t p with
  | none => none
  | some ty =>
    if hasCap ty.capabilities NODE_SOURCE_CAPABILITY_WRITABLE_FEEDLIST &&
        hasCap ty.capabilities NODE_SOURCE_CAPABILITY_ADD_FOLDER &&
        hasCap ty.capabilities NODE_SOURCE_CAPABILITY_HIERARCHIC_FEEDLIST then
      match attachChild t p (newFolderNode title) with
      | none => none
      | some t2 =>
        some
          { newNode := some (newFolderNode title),
            events := [Event.addFolder title], tree := t2 }
    else
      some { newNode := none, events := [], tree := t }

/-- Modelled from the spec: node_source.c is absent.  Spec section 4.4
item_mark_read(node, item, newState) is gated by ItemStateSync: when the
flag is absent the call is a provider-side no-op; when present the
item_mark_read hook is invoked once with the given new state.  The returned
trace records the hook invocations. -/
def node_source_item_mark_read (t : FTree) (p : List Nat) (item : Nat)
    (newState : Bool) : Option (List Event) :=
  match resolvedType t p with
  | none => none
  | some ty =>
    if hasCap ty.capabilities NODE_SOURCE_CAPABILITY_ITEM_STATE_SYNC then
      some [Event.itemMarkRead item newState]
    else
      some []

/-- Modelled from the spec: node_source.c is absent.  Spec section 4.4
item_set_flag(node, item, newState) is gated by ItemStateSync exactly like
item_mark_read, invoking the item_set_flag hook. -/
def node_source_item_set_flag (t : FTree) (p : List Nat) (item : Nat)
    (newState : Bool) : Option (List Event) :=
  match resolvedType t p with
  | none => none
  | some ty =>
    if hasCap ty.capabilities NODE_SOURCE_CAPABILITY_ITEM_STATE_SYNC then
      some [Event.itemSetFlag item newState]
    else
      some []

/-- Payload rewrite performed by convert_to_local on every node of the
subtree: the bound provider instance is detached, and a subscription node
becomes a plain local subscription. -/
def localizeData (d : NodeData) : NodeData :=
  { source := none, subscription := d.subscription,
    subType :=
      if d.subscription.isSome then some localSubscriptionTypeId else none,
    title := d.title }

mutual

/-- Modelled from the spec: node_source.c is absent.  Spec section 4.4: the
convert_to_local hook must rewrite every descendant subscription node into a
plain local subscription and detach the provider instance from the
subtree. -/
def convertSubtree : FTree → FTree
  | .node d cs => .node (localizeData d) (convertForest cs)

/-- Conversion of a list of subtrees, see convertSubtree. -/
def convertForest : List FTree → List FTree
  | [] => []
  | c :: cs => convertSubtree c :: convertForest cs

end

/-- Modelled from the spec: node_source.c is absent.  Spec section 4.4
convert_to_local(node) is gated by ConvertToLocal; when the flag is present
the convert_to_local hook is invoked on the node and rewrites its subtree;
when absent nothing happens. -/
def node_source_convert_to_local (t : FTree) (p : List Nat) :
    Option (List Event × FTree) :=
  match resolvedType t p with
  | none => none
  | some ty =>
    if hasCap ty.capabilities NODE_SOURCE_CAPABILITY_CONVERT_TO_LOCAL then
      match modifyAt t p convertSubtree with
      | none => none
      | some t2 => some ([Event.convertToLocal], t2)
    else
      some ([], t)

mutual

/-- Number of subscription nodes in a subtree. -/
def countSubscriptions : FTree → Nat
  | .node d cs =>
    (if d.subscription.isSome then 1 else 0) + countSubscriptionsF cs

/-- Number of subscription nodes in a forest. -/
def countSubscriptionsF : List FTree → Nat
  | [] => 0
  | c :: cs => countSubscriptions c + countSubscriptionsF cs

end

mutual

/-- Number of plain local subscription nodes in a subtree. -/
def countLocalSubscriptions : FTree → Nat
  | .node d cs =>
    (if d.subscription.isSome && d.subType == some localSubscriptionTypeId
      then 1 else 0) + countLocalSubscriptionsF cs

/-- Number of plain local subscription nodes in a forest. -/
def countLocalSubscriptionsF : List FTree → Nat
  | [] => 0
  | c :: cs => countLocalSubscriptions c + countLocalSubscriptionsF cs

end

mutual

/-- Number of nodes of a subtree holding a bound provider instance. -/
def countBoundInstances : FTree → Nat
  | .node d cs =>
    (if d.source.isSome then 1 else 0) + countBoundInstancesF cs

/-- Number of nodes of a forest holding a bound provider instance. -/
def countBoundInstancesF : List FTree → Nat
  | [] => 0
  | c :: cs => countBoundInstances c + countBoundInstancesF cs

end

/-- Registration-time well-formedness of the registry, from the node_source.h
contract on the optional hooks: source_new and source_delete are mandatory
for all sources except the root source. -/
def wfRegistry (r : List NodeSourceType) : Bool :=
  r.all (fun d =>
    hasCap d.capabilities NODE_SOURCE_CAPABILITY_IS_ROOT ||
      (d.source_new.isSome && d.source_delete.isSome))

/-! Concrete fixtures, following the scenario of spec section 8: a root
type, a local type and a remote type, and small feed list trees. -/

/-- Identity subscription rewrite. -/
def noRewrite : Subscription → Subscription := fun s => s

/-- Subscription rewrite of a provider that proxies the fetch target. -/
def proxyRewrite : Subscription → Subscription :=
  fun s => { s with source := "proxy-" ++ s.source }

/-- Sample node of an imported subtree. -/
def sampleImported : ImportedNode :=
  { title := "imported", subscription := none, subType := none }

/-- Sample descriptor of the default (root) source type: IsRoot only, no
source_new and no source_delete hook. -/
def sampleRootType : NodeSourceType :=
  { id := "fl_default", name := "Default", description := "default source",
    capabilities := NODE_SOURCE_CAPABILITY_IS_ROOT,
    subscriptionType := localSubscriptionTypeId,
    source_new := none, source_delete := none,
    source_import := [sampleImported],
    add_subscription_rewrite := noRewrite }

/-- Sample descriptor of a local writable source type: WritableTree,
AddFeed, AddFolder, HierarchicTree. -/
def sampleLocalType : NodeSourceType :=
  { id := "fl_local", name := "Local", description := "local source",
    capabilities := NODE_SOURCE_CAPABILITY_WRITABLE_FEEDLIST |||
      NODE_SOURCE_CAPABILITY_ADD_FEED |||
      NODE_SOURCE_CAPABILITY_ADD_FOLDER |||
      NODE_SOURCE_CAPABILITY_HIERARCHIC_FEEDLIST,
    subscriptionType := localSubscriptionTypeId,
    source_new := some (), source_delete := some (),
    source_import := [],
    add_subscription_rewrite := noRewrite }

/-- Sample descriptor of a remote source type: WritableTree, AddFeed,
DynamicCreation, ItemStateSync, ConvertToLocal, with a proxying
subscription rewrite. -/
def sampleRemoteType : NodeSourceType :=
  { id := "fl_remote", name := "Remote", description := "remote source",
    capabilities := NODE_SOURCE_CAPABILITY_WRITABLE_FEEDLIST |||
      NODE_SOURCE_CAPABILITY_ADD_FEED |||
      NODE_SOURCE_CAPABILITY_DYNAMIC_CREATION |||
      NODE_SOURCE_CAPABILITY_ITEM_STATE_SYNC |||
      NODE_SOURCE_CAPABILITY_CONVERT_TO_LOCAL,
    subscriptionType := "remote-sub",
    source_new := some (), source_delete := some (),
    source_import := [],
    add_subscription_rewrite := proxyRewrite }

/-- Sample subscription descriptor. -/
def sampleSub : Subscription :=
  { source := "example.com-feed", updateInterval := 60 }

/-- Payload of a master root bound to the local type. -/
def sampleRootData : NodeData :=
  { source := some { type := sampleLocalType, root := [] },
    subscription := none, subType := none, title := "root" }

/-- Plain local subscription node. -/
def sampleFeedNode : FTree :=
  .node
    { source := none, subscription := some sampleSub,
      subType := some localSubscriptionTypeId, title := "feed" } []

/-- Tree whose master root is bound to the local type and has one plain
subscription child. -/
def sampleTree : FTree :=
  .node sampleRootData [sampleFeedNode]

/-- Payload of a fresh unbound node. -/
def sampleNodeData : NodeData :=
  { source := none, subscription := none, subType := none,
    title := "new node" }

/-- Tree whose master root is bound to the root-only type (no WritableTree,
no AddFeed). -/
def sampleTreeRootOnly : FTree :=
  .node
    { source := some { type := sampleRootType, root := [] },
      subscription := none, subType := none, title := "root" } []

/-- Tree whose master root is bound to the remote type and holds one
remote-typed subscription child and one folder child. -/
def sampleTreeRemote : FTree :=
  .node
    { source := some { type := sampleRemoteType, root := [] },
      subscription := none, subType := none, title := "remote root" }
    [.node
      { source := none, subscription := some sampleSub,
        subType := some "remote-sub", title := "remote feed" } [],
     .node
      { source := none, subscription := none, subType := none,
        title := "remote folder" } []]

/-- Provider root node bound to the remote type at path [0]. -/
def sampleRemoteChild : FTree :=
  .node
    { source := some { type := sampleRemoteType, root := [0] },
      subscription := none, subType := none, title := "remote" } []

/-- Tree whose master root holds no bound instance but has a child bound to
the remote type. -/
def sampleTreeUnboundRoot : FTree :=
  .node
    { source := none, subscription := none, subType := none, title := "top" }
    [sampleRemoteChild]

/-- Sample registry with a single root-flagged descriptor. -/
def sampleRegistry : List NodeSourceType :=
  [sampleRootType, sampleLocalType, sampleRemoteType]

/-! Helper lemmas about the tree operations. -/

/-- Setting a present index makes lookup at that index return the new
element. -/
theorem get_set_self {A : Type} :
    ∀ (l : List A) (i : Nat) (a : A),
      (l[i]?).isSome → (l.set i a)[i]? = some a
  | [], i, a, h => by simp at h
  | _ :: l, 0, a, _ => by simp
  | x :: l, i + 1, a, h => by
    simpa using get_set_self l i a (by simpa using h)

/-- Setting an index leaves the list length unchanged, hence modifyAt
succeeds on every valid path. -/
theorem modifyAt_isSome (f : FTree → FTree) :
    ∀ (t : FTree) (p : List Nat),
      (getNode t p).isSome → (modifyAt t p f).isSome
  | _, [], _ => by simp [modifyAt]
  | .node d cs, i :: rest, h => by
    cases hg : cs[i]? with
    | none => simp [getNode, FTree.children, hg] at h
    | some c =>
      have ih := modifyAt_isSome f c rest
        (by simpa [getNode, FTree.children, hg] using h)
      cases hm : modifyAt c rest f with
      | none => rw [hm] at ih; simp at ih
      | some c2 => simp [modifyAt, FTree.children, hg, hm]

/-- Looking up the modified path after modifyAt yields the rewritten
subtree. -/
theorem getNode_modifyAt (f : FTree → FTree) :
    ∀ (t : FTree) (p : List Nat) (s t2 : FTree),
      getNode t p = some s → modifyAt t p f = some t2 →
      getNode t2 p = some (f s)
  | t, [], s, t2, hg, hm => by
    simp [getNode] at hg
    simp [modifyAt] at hm
    rw [← hg, ← hm]
    rfl
  | .node d cs, i :: rest, s, t2, hg, hm => by
    cases hgi : cs[i]? with
    | none => simp [getNode, FTree.children, hgi] at hg
    | some c =>
      have hg2 : getNode c rest = some s := by
        simpa [getNode, FTree.children, hgi] using hg
      cases hmi : modifyAt c rest f with
      | none => simp [modifyAt, FTree.children, hgi, hmi] at hm
      | some c2 =>
        have ht2 : t2 = .node (FTree.data (.node d cs)) (cs.set i c2) := by
          have h2 := hm
          simp [modifyAt, FTree.children, hgi, hmi] at h2
          exact h2.symm
        have hset : (cs.set i c2)[i]? = some c2 :=
          get_set_self cs i c2 (by simp [hgi])
        rw [ht2]
        simpa [getNode, FTree.children, hset] using
          getNode_modifyAt f c rest s c2 hg2 hmi

/-- Root resolution succeeds on every valid path. -/
theorem rootFrom_isSome :
    ∀ (t : FTree) (p : List Nat),
      (getNode t p).isSome → (node_source_root_from_node t p).isSome
  | _, [], _ => by simp [node_source_root_from_node]
  | .node d cs, i :: rest, h => by
    cases hg : cs[i]? with
    | none => simp [getNode, FTree.children, hg] at h
    | some c =>
      have ih := rootFrom_isSome c rest
        (by simpa [getNode, FTree.children, hg] using h)
      cases hr : node_source_root_from_node c rest with
      | none => rw [hr] at ih; simp at ih
      | some r => simp [node_source_root_from_node, FTree.children, hg, hr]

/-- A resolved root either holds a bound instance, or is the master root
the walk stopped at. -/
theorem rootFrom_bound_or_top :
    ∀ (t : FTree) (p : List Nat) (r : FTree),
      node_source_root_from_node t p = some r →
      (FTree.data r).source.isSome = true ∨ r = t
  | t, [], r, h => by
    simp [node_source_root_from_node] at h
    exact Or.inr h.symm
  | .node d cs, i :: rest, r, h => by
    cases hg : cs[i]? with
    | none => simp [node_source_root_from_node, FTree.children, hg] at h
    | some c =>
      cases hr : node_source_root_from_node c rest with
      | none => simp [node_source_root_from_node, FTree.children, hg, hr] at h
      | some r0 =>
        have hcase :
            (if (FTree.data r0).source.isSome then r0 else .node d cs) = r := by
          have h2 := h
          simp [node_source_root_from_node, FTree.children, hg, hr] at h2
          exact h2
        by_cases hb : (FTree.data r0).source.isSome = true
        · left
          rw [← hcase]
          simp [hb]
        · right
          rw [← hcase]
          simp [hb]

mutual

/-- Conversion turns every subscription node of a subtree into a local
subscription, so the local subscription count after conversion equals the
subscription count before. -/
theorem convert_localCount :
    ∀ t : FTree,
      countLocalSubscriptions (convertSubtree t) = countSubscriptions t
  | .node d cs => by
    have ihf := convert_localCountF cs
    cases hs : d.subscription with
    | none =>
      simp [convertSubtree, countLocalSubscriptions, countSubscriptions,
        localizeData, hs, ihf]
    | some s =>
      simp [convertSubtree, countLocalSubscriptions, countSubscriptions,
        localizeData, hs, ihf]

/-- Forest version of convert_localCount. -/
theorem convert_localCountF :
    ∀ cs : List FTree,
      countLocalSubscriptionsF (convertForest cs) = countSubscriptionsF cs
  | [] => rfl
  | c :: cs => by
    simp [convertForest, countLocalSubscriptionsF, countSubscriptionsF,
      convert_localCount c, convert_localCountF cs]

end

mutual

/-- Conversion detaches every bound provider instance of the subtree. -/
theorem convert_boundCount :
    ∀ t : FTree, countBoundInstances (convertSubtree t) = 0
  | .node d cs => by
    simp [convertSubtree, countBoundInstances, localizeData,
      convert_boundCountF cs]

/-- Forest version of convert_boundCount. -/
theorem convert_boundCountF :
    ∀ cs : List FTree, countBoundInstancesF (convertForest cs) = 0
  | [] => rfl
  | c :: cs => by
    simp [convertForest, countBoundInstancesF, convert_boundCount c,
      convert_boundCountF cs]

end

/-- Folding register over a descriptor sequence appends it to the
accumulator. -/
theorem foldl_register (ds : List NodeSourceType) :
    ∀ acc : List NodeSourceType, ds.foldl register acc = acc ++ ds := by
  induction ds with
  | nil => intro acc; simp
  | cons d ds ih => intro acc; simp [register, ih]

/-- Registering a sequence of descriptors into the empty registry yields
exactly that sequence. -/
theorem registryOf_eq (ds : List NodeSourceType) : registryOf ds = ds := by
  simp [registryOf, foldl_register]

/-- C1: in every registry state reachable by registering provider type
descriptors, node_source_setup_root returns a root node exactly when one
registered descriptor carries the IsRoot capability flag; when zero or more
than one descriptors carry IsRoot the call fails fatally (modelled none)
instead of returning a root node. -/
theorem c1_single_root_gate (ds : List NodeSourceType) :
    (node_source_setup_root (registryOf ds)).isSome = true ↔
      (rootTypes (registryOf ds)).length = 1 := by
  rw [registryOf_eq]
  cases h : rootTypes ds with
  | nil => simp [node_source_setup_root, find_root, h]
  | cons d l =>
    cases l with
    | nil => simp [node_source_setup_root, find_root, h]
    | cons e l2 => simp [node_source_setup_root, find_root, h]

/-- C2: for every node of a tree whose master root holds a bound provider
instance, the parent-reference walk of node_source_root_from_node terminates
(it is a total function of the node) and returns a node holding a bound
instance; the result is never empty. -/
theorem c2_root_walk_never_empty (t : FTree) (p : List Nat)
    (hroot : (FTree.data t).source.isSome = true)
    (hvalid : (getNode t p).isSome = true) :
    ∃ r, node_source_root_from_node t p = some r ∧
      (FTree.data r).source.isSome = true := by
  have h1 := rootFrom_isSome t p hvalid
  cases hr : node_source_root_from_node t p with
  | none => rw [hr] at h1; simp at h1
  | some r =>
    refine ⟨r, rfl, ?_⟩
    rcases rootFrom_bound_or_top t p r hr with hb | htop
    · exact hb
    · rw [htop]; exact hroot

/-- Witness for C2 on the sample tree and its subscription child. -/
theorem c2_witness :
    (FTree.data sampleTree).source.isSome = true ∧
    (getNode sampleTree [0]).isSome = true ∧
    ∃ r, node_source_root_from_node sampleTree [0] = some r ∧
      (FTree.data r).source.isSome = true :=
  ⟨rfl, rfl, c2_root_walk_never_empty sampleTree [0] rfl rfl⟩

/-- C3: when the type of the resolved provider instance lacks WritableTree
or lacks AddFeed, node_source_add_subscription performs no tree mutation
(the returned tree is the input tree and the hook trace is empty, so
provider state is untouched) and returns a refusal (no new node). -/
theorem c3_add_subscription_refused (t : FTree) (p : List Nat)
    (sub : Subscription) (ty : NodeSourceType)
    (hty : resolvedType t p = some ty)
    (hcap :
      hasCap ty.capabilities NODE_SOURCE_CAPABILITY_WRITABLE_FEEDLIST =
          false ∨
        hasCap ty.capabilities NODE_SOURCE_CAPABILITY_ADD_FEED = false) :
    node_source_add_subscription t p sub =
      some { newNode := none, events := [], tree := t } := by
  have hand :
      (hasCap ty.capabilities NODE_SOURCE_CAPABILITY_WRITABLE_FEEDLIST &&
        hasCap ty.capabilities NODE_SOURCE_CAPABILITY_ADD_FEED) = false := by
    rcases hcap with h | h <;> simp [h]
  simp [node_source_add_subscription, hty, hand]

/-- Witness for C3 on a tree bound to the root-only type, which lacks
AddFeed. -/
theorem c3_witness :
    resolvedType sampleTreeRootOnly [] = some sampleRootType ∧
    hasCap sampleRootType.capabilities NODE_SOURCE_CAPABILITY_ADD_FEED =
      false ∧
    node_source_add_subscription sampleTreeRootOnly [] sampleSub =
      some { newNode := none, events := [], tree := sampleTreeRootOnly } :=
  ⟨rfl, by decide,
    c3_add_subscription_refused sampleTreeRootOnly [] sampleSub
      sampleRootType rfl (Or.inr (by decide))⟩

/-- C4: when the type of the resolved provider instance has both
WritableTree and AddFeed, node_source_add_subscription invokes the
add_subscription hook of the operation table exactly once (the trace is the
singleton of that invocation) and returns a newly created child node,
attached under the target in the post-call tree, holding the given
subscription descriptor after the rewrite the provider may apply. -/
theorem c4_add_subscription_success (t : FTree) (p : List Nat)
    (sub : Subscription) (ty : NodeSourceType) (d : NodeData)
    (cs : List FTree)
    (hty : resolvedType t p = some ty)
    (hW :
      hasCap ty.capabilities NODE_SOURCE_CAPABILITY_WRITABLE_FEEDLIST = true)
    (hA : hasCap ty.capabilities NODE_SOURCE_CAPABILITY_ADD_FEED = true)
    (hget : getNode t p = some (.node d cs)) :
    ∃ t2,
      node_source_add_subscription t p sub =
        some { newNode := some (newSubscriptionNode ty sub),
               events :=
                 [Event.addSubscription (ty.add_subscription_rewrite sub)],
               tree := t2 } ∧
      getNode t2 p = some (.node d (cs ++ [newSubscriptionNode ty sub])) ∧
      (FTree.data (newSubscriptionNode ty sub)).subscription =
        some (ty.add_subscription_rewrite sub) := by
  have hvalid : (getNode t p).isSome = true := by rw [hget]; rfl
  have hat :=
    modifyAt_isSome (appendChild (newSubscriptionNode ty sub)) t p hvalid
  cases hm : modifyAt t p (appendChild (newSubscriptionNode ty sub)) with
  | none => rw [hm] at hat; simp at hat
  | some t2 =>
    refine ⟨t2, ?_, ?_, rfl⟩
    · simp [node_source_add_subscription, hty, hW, hA, attachChild, hm]
    · have hmod :=
        getNode_modifyAt (appendChild (newSubscriptionNode ty sub)) t p
          (.node d cs) t2 hget hm
      simpa [appendChild, FTree.data, FTree.children] using hmod

/-- Witness for C4 on the sample tree bound to the local type. -/
theorem c4_witness :
    resolvedType sampleTree [] = some sampleLocalType ∧
    hasCap sampleLocalType.capabilities
      NODE_SOURCE_CAPABILITY_WRITABLE_FEEDLIST = true ∧
    hasCap sampleLocalType.capabilities NODE_SOURCE_CAPABILITY_ADD_FEED =
      true ∧
    ∃ t2,
      node_source_add_subscription sampleTree [] sampleSub =
        some { newNode :=
                 some (newSubscriptionNode sampleLocalType sampleSub),
               events :=
                 [Event.addSubscription
                   (sampleLocalType.add_subscription_rewrite sampleSub)],
               tree := t2 } ∧
      getNode t2 [] =
        some (.node sampleRootData
          ([sampleFeedNode] ++ [newSubscriptionNode sampleLocalType
            sampleSub])) ∧
      (FTree.data (newSubscriptionNode sampleLocalType sampleSub)).subscription
        = some (sampleLocalType.add_subscription_rewrite sampleSub) :=
  ⟨rfl, by decide, by decide,
    c4_add_subscription_success sampleTree [] sampleSub sampleLocalType
      sampleRootData [sampleFeedNode] rfl (by decide) (by decide) rfl⟩

/-- C5: node_source_add_folder invokes the add_folder hook and returns the
new folder node when the resolved type has all of WritableTree, AddFolder
and HierarchicTree, and refuses with zero mutation (unchanged tree, empty
hook trace, no new node) when any of the three is absent. -/
theorem c5_add_folder_gating (t : FTree) (p : List Nat) (title : String)
    (ty : NodeSourceType) (d : NodeData) (cs : List FTree)
    (hty : resolvedType t p = some ty)
    (hget : getNode t p = some (.node d cs)) :
    ((hasCap ty.capabilities NODE_SOURCE_CAPABILITY_WRITABLE_FEEDLIST =
          true ∧
        hasCap ty.capabilities NODE_SOURCE_CAPABILITY_ADD_FOLDER = true ∧
        hasCap ty.capabilities NODE_SOURCE_CAPABILITY_HIERARCHIC_FEEDLIST =
          true) →
      ∃ t2,
        node_source_add_folder t p title =
          some { newNode := some (newFolderNode title),
                 events := [Event.addFolder title], tree := t2 } ∧
        getNode t2 p = some (.node d (cs ++ [newFolderNode title]))) ∧
    ((hasCap ty.capabilities NODE_SOURCE_CAPABILITY_WRITABLE_FEEDLIST =
          false ∨
        hasCap ty.capabilities NODE_SOURCE_CAPABILITY_ADD_FOLDER = false ∨
        hasCap ty.capabilities NODE_SOURCE_CAPABILITY_HIERARCHIC_FEEDLIST =
          false) →
      node_source_add_folder t p title =
        some { newNode := none, events := [], tree := t }) := by
  constructor
  · rintro ⟨hW, hF, hH⟩
    have hvalid : (getNode t p).isSome = true := by rw [hget]; rfl
    have hat := modifyAt_isSome (appendChild (newFolderNode title)) t p hvalid
    cases hm : modifyAt t p (appendChild (newFolderNode title)) with
    | none => rw [hm] at hat; simp at hat
    | some t2 =>
      refine ⟨t2, ?_, ?_⟩
      · simp [node_source_add_folder, hty, hW, hF, hH, attachChild, hm]
      · have hmod :=
          getNode_modifyAt (appendChild (newFolderNode title)) t p
            (.node d cs) t2 hget hm
        simpa [appendChild, FTree.data, FTree.children] using hmod
  · intro hcap
    have hand :
        (hasCap ty.capabilities NODE_SOURCE_CAPABILITY_WRITABLE_FEEDLIST &&
          hasCap ty.capabilities NODE_SOURCE_CAPABILITY_ADD_FOLDER &&
          hasCap ty.capabilities
            NODE_SOURCE_CAPABILITY_HIERARCHIC_FEEDLIST) = false := by
      rcases hcap with h | h | h <;> simp [h]
    simp [node_source_add_folder, hty, hand]

/-- Witness for C5 on the sample tree bound to the local type, which has
all three required capabilities. -/
theorem c5_witness :
    resolvedType sampleTree [] = some sampleLocalType ∧
    ((hasCap sampleLocalType.capabilities
          NODE_SOURCE_CAPABILITY_WRITABLE_FEEDLIST = true ∧
        hasCap sampleLocalType.capabilities
          NODE_SOURCE_CAPABILITY_ADD_FOLDER = true ∧
        hasCap sampleLocalType.capabilities
          NODE_SOURCE_CAPABILITY_HIERARCHIC_FEEDLIST = true) →
      ∃ t2,
        node_source_add_folder sampleTree [] "Tech" =
          some { newNode := some (newFolderNode "Tech"),
                 events := [Event.addFolder "Tech"], tree := t2 } ∧
        getNode t2 [] =
          some (.node sampleRootData
            ([sampleFeedNode] ++ [newFolderNode "Tech"]))) ∧
    ((hasCap sampleLocalType.capabilities
          NODE_SOURCE_CAPABILITY_WRITABLE_FEEDLIST = false ∨
        hasCap sampleLocalType.capabilities
          NODE_SOURCE_CAPABILITY_ADD_FOLDER = false ∨
        hasCap sampleLocalType.capabilities
          NODE_SOURCE_CAPABILITY_HIERARCHIC_FEEDLIST = false) →
      node_source_add_folder sampleTree [] "Tech" =
        some { newNode := none, events := [], tree := sampleTree }) :=
  ⟨rfl,
    c5_add_folder_gating sampleTree [] "Tech" sampleLocalType sampleRootData
      [sampleFeedNode] rfl rfl⟩

/-- C6: node_source_item_mark_read and node_source_item_set_flag never
invoke the corresponding provider hook when the resolved type lacks
ItemStateSync (empty hook trace), and when the type has ItemStateSync each
call invokes its hook exactly once, passing exactly the given new state
value (the trace is the singleton invocation carrying newState). -/
theorem c6_item_state_sync_gating (t : FTree) (p : List Nat) (item : Nat)
    (newState : Bool) (ty : NodeSourceType)
    (hty : resolvedType t p = some ty) :
    (hasCap ty.capabilities NODE_SOURCE_CAPABILITY_ITEM_STATE_SYNC = false →
      node_source_item_mark_read t p item newState = some [] ∧
      node_source_item_set_flag t p item newState = some []) ∧
    (hasCap ty.capabilities NODE_SOURCE_CAPABILITY_ITEM_STATE_SYNC = true →
      node_source_item_mark_read t p item newState =
        some [Event.itemMarkRead item newState] ∧
      node_source_item_set_flag t p item newState =
        some [Event.itemSetFlag item newState]) := by
  constructor
  · intro h
    constructor
    · simp [node_source_item_mark_read, hty, h]
    · simp [node_source_item_set_flag, hty, h]
  · intro h
    constructor
    · simp [node_source_item_mark_read, hty, h]
    · simp [node_source_item_set_flag, hty, h]

/-- Witness for C6 on the remote-typed tree, which has ItemStateSync. -/
theorem c6_witness :
    resolvedType sampleTreeRemote [] = some sampleRemoteType ∧
    (hasCap sampleRemoteType.capabilities
        NODE_SOURCE_CAPABILITY_ITEM_STATE_SYNC = false →
      node_source_item_mark_read sampleTreeRemote [] 5 true = some [] ∧
      node_source_item_set_flag sampleTreeRemote [] 5 true = some []) ∧
    (hasCap sampleRemoteType.capabilities
        NODE_SOURCE_CAPABILITY_ITEM_STATE_SYNC = true →
      node_source_item_mark_read sampleTreeRemote [] 5 true =
        some [Event.itemMarkRead 5 true] ∧
      node_source_item_set_flag sampleTreeRemote [] 5 true =
        some [Event.itemSetFlag 5 true]) :=
  ⟨rfl, c6_item_state_sync_gating sampleTreeRemote [] 5 true
    sampleRemoteType rfl⟩

/-- C7: for a subtree rooted at a node whose resolved provider type has the
ConvertToLocal capability and containing N subscription descendants,
node_source_convert_to_local invokes the convert_to_local hook and leaves
the subtree with exactly N local subscriptions and zero remaining bound
provider instances. -/
theorem c7_convert_to_local_counts (t : FTree) (p : List Nat)
    (ty : NodeSourceType) (s : FTree)
    (hty : resolvedType t p = some ty)
    (hcap :
      hasCap ty.capabilities NODE_SOURCE_CAPABILITY_CONVERT_TO_LOCAL = true)
    (hget : getNode t p = some s) :
    ∃ t2,
      node_source_convert_to_local t p = some ([Event.convertToLocal], t2) ∧
      getNode t2 p = some (convertSubtree s) ∧
      countLocalSubscriptions (convertSubtree s) = countSubscriptions s ∧
      countBoundInstances (convertSubtree s) = 0 := by
  have hvalid : (getNode t p).isSome = true := by rw [hget]; rfl
  have hat := modifyAt_isSome convertSubtree t p hvalid
  cases hm : modifyAt t p convertSubtree with
  | none => rw [hm] at hat; simp at hat
  | some t2 =>
    refine ⟨t2, ?_, ?_, convert_localCount s, convert_boundCount s⟩
    · simp [node_source_convert_to_local, hty, hcap, hm]
    · exact getNode_modifyAt convertSubtree t p s t2 hget hm

/-- Witness for C7 on the remote-typed tree with one subscription
descendant. -/
theorem c7_witness :
    resolvedType sampleTreeRemote [] = some sampleRemoteType ∧
    hasCap sampleRemoteType.capabilities
      NODE_SOURCE_CAPABILITY_CONVERT_TO_LOCAL = true ∧
    countSubscriptions sampleTreeRemote = 1 ∧
    ∃ t2,
      node_source_convert_to_local sampleTreeRemote [] =
        some ([Event.convertToLocal], t2) ∧
      getNode t2 [] = some (convertSubtree sampleTreeRemote) ∧
      countLocalSubscriptions (convertSubtree sampleTreeRemote) =
        countSubscriptions sampleTreeRemote ∧
      countBoundInstances (convertSubtree sampleTreeRemote) = 0 :=
  ⟨rfl, by decide, rfl,
    c7_convert_to_local_counts sampleTreeRemote [] sampleRemoteType
      sampleTreeRemote rfl (by decide) rfl⟩

/-- C8: with exactly one IsRoot descriptor registered,
node_source_setup_root performs in order: find the root descriptor, create
a new tree node, create a provider instance binding that node to the root
descriptor, invoke the import hook of the descriptor on that node (the
trace records these steps in that order), and return that node; the
returned node holds a bound instance whose type is the root descriptor. -/
theorem c8_setup_root_sequence (r : List NodeSourceType)
    (d : NodeSourceType) (hfind : rootTypes r = [d]) :
    node_source_setup_root r =
      some (setupRootNode d,
        [Event.createNode, Event.createInstance d.id,
          Event.sourceImport d.id]) ∧
    (FTree.data (setupRootNode d)).source = some { type := d, root := [] } := by
  constructor
  · simp [node_source_setup_root, find_root, hfind]
  · rfl

/-- Witness for C8 on the sample registry, whose single IsRoot descriptor
is the default root type. -/
theorem c8_witness :
    rootTypes sampleRegistry = [sampleRootType] ∧
    node_source_setup_root sampleRegistry =
      some (setupRootNode sampleRootType,
        [Event.createNode, Event.createInstance sampleRootType.id,
          Event.sourceImport sampleRootType.id]) ∧
    (FTree.data (setupRootNode sampleRootType)).source =
      some { type := sampleRootType, root := [] } :=
  ⟨rfl,
    (c8_setup_root_sequence sampleRegistry sampleRootType rfl).1,
    (c8_setup_root_sequence sampleRegistry sampleRootType rfl).2⟩

/-- C9: every dispatch operation reads the provider type through the
unchecked NODE_SOURCE_TYPE dereference of the resolved node.  When the
resolved root node holds a bound instance the access never faults; on a
tree whose master root lacks a bound instance the dereference at the master
root faults, so none of the dispatch functions is safe to call there. -/
theorem c9_unchecked_type_access (t : FTree) (p : List Nat) (r : FTree)
    (sub : Subscription) (item : Nat) (b : Bool) (title : String)
    (hres : node_source_root_from_node t p = some r)
    (hbound : (FTree.data r).source.isSome = true)
    (hunbound : (FTree.data t).source = none) :
    (resolvedType t p).isSome = true ∧
    node_source_add_subscription t [] sub = none ∧
    node_source_add_folder t [] title = none ∧
    node_source_item_mark_read t [] item b = none ∧
    node_source_item_set_flag t [] item b = none ∧
    node_source_convert_to_local t [] = none := by
  have hres0 : resolvedType t [] = none := by
    simp [resolvedType, node_source_root_from_node, NODE_SOURCE_TYPE,
      hunbound]
  obtain ⟨inst, hinst⟩ := Option.isSome_iff_exists.mp hbound
  refine ⟨?_, ?_, ?_, ?_, ?_, ?_⟩
  · simp [resolvedType, hres, NODE_SOURCE_TYPE, hinst]
  · simp [node_source_add_subscription, hres0]
  · simp [node_source_add_folder, hres0]
  · simp [node_source_item_mark_read, hres0]
  · simp [node_source_item_set_flag, hres0]
  · simp [node_source_convert_to_local, hres0]

/-- Witness for C9 on the tree with an unbound master root and a remote
provider root child. -/
theorem c9_witness :
    node_source_root_from_node sampleTreeUnboundRoot [0] =
      some sampleRemoteChild ∧
    (FTree.data sampleRemoteChild).source.isSome = true ∧
    (FTree.data sampleTreeUnboundRoot).source = none ∧
    ((resolvedType sampleTreeUnboundRoot [0]).isSome = true ∧
      node_source_add_subscription sampleTreeUnboundRoot [] sampleSub =
        none ∧
      node_source_add_folder sampleTreeUnboundRoot [] "Tech" = none ∧
      node_source_item_mark_read sampleTreeUnboundRoot [] 5 true = none ∧
      node_source_item_set_flag sampleTreeUnboundRoot [] 5 true = none ∧
      node_source_convert_to_local sampleTreeUnboundRoot [] = none) :=
  ⟨rfl, rfl, rfl,
    c9_unchecked_type_access sampleTreeUnboundRoot [0] sampleRemoteChild
      sampleSub 5 true "Tech" rfl rfl rfl⟩

/-- C10: in a well-formed registry every registered provider type other
than a root type implements both source_new and source_delete (the hooks
are optional only for the root provider type), so node_source_new on a
non-root type may invoke source_new unconditionally without a null check
and never faults. -/
theorem c10_source_new_no_null_check (r : List NodeSourceType)
    (d : NodeSourceType) (nd : NodeData) (p : List Nat)
    (hwf : wfRegistry r = true) (hmem : d ∈ r)
    (hroot : hasCap d.capabilities NODE_SOURCE_CAPABILITY_IS_ROOT = false) :
    d.source_new.isSome = true ∧ d.source_delete.isSome = true ∧
    (node_source_new nd p d).isSome = true := by
  have h := (List.all_eq_true.mp hwf) d hmem
  rw [hroot] at h
  simp at h
  obtain ⟨h1, h2⟩ := h
  refine ⟨h1, h2, ?_⟩
  obtain ⟨u, hu⟩ := Option.isSome_iff_exists.mp h1
  by_cases hd :
    hasCap d.capabilities NODE_SOURCE_CAPABILITY_DYNAMIC_CREATION = true
  · simp [node_source_new, hroot, hd, hu]
  · simp [node_source_new, hroot, hd]

/-- Witness for C10 on the sample registry and its local type. -/
theorem c10_witness :
    wfRegistry sampleRegistry = true ∧
    hasCap sampleLocalType.capabilities NODE_SOURCE_CAPABILITY_IS_ROOT =
      false ∧
    sampleLocalType.source_new.isSome = true ∧
    sampleLocalType.source_delete.isSome = true ∧
    (node_source_new sampleNodeData [] sampleLocalType).isSome = true :=
  ⟨rfl, by decide,
    c10_source_new_no_null_check sampleRegistry sampleLocalType
      sampleNodeData [] rfl
      (List.mem_cons_of_mem sampleRootType
        (List.mem_cons_self sampleLocalType [sampleRemoteType]))
      (by decide)⟩

end NodeSourceSpec
